import Mathlib

/-!
# Verification of the crypto_auto_tracker extraction and analysis core

Shallow embedding of `src/crypto_auto_tracker.py`.  Python floats are
modelled by `ℚ` (every numeric literal appearing in the program and in the
tracked examples is exactly representable), except where the program can
produce IEEE non-finite values: those points are modelled by `PFloat`,
which carries NaN and the two infinities explicitly.  Fallible Python
operations (a raised exception) are modelled with `Option`/`Except`; the
program's `try/except` blocks become total functions on those types.
-/

/-- Result of a numpy/pandas floating-point computation that may be
non-finite.  `npDiv` below reproduces IEEE division by zero: `0/0 = NaN`,
`±x/0 = ±∞`; no exception is raised. -/
inductive PFloat where
  | val (q : ℚ)
  | nan
  | pinf
  | ninf
deriving DecidableEq

/-- numpy float64 division: never raises; zero denominator yields NaN or a
signed infinity depending on the numerator (signed zero is not modelled -
no tracked claim distinguishes `0.0` from `-0.0`). -/
def npDiv (a b : ℚ) : PFloat :=
  if b = 0 then (if a = 0 then .nan else if 0 < a then .pinf else .ninf)
  else .val (a / b)

/-- Comparison `x > 0` on a numpy scalar: NaN compares false, and positive
infinity compares true. -/
def pfGtZero : PFloat → Bool
  | .val q => decide (0 < q)
  | .nan => false
  | .pinf => true
  | .ninf => false

/-! ## Model of Python's `float(text)` and `str` operations

Python's `float()` accepts an optionally signed decimal significand with an
optional exponent, surrounded by whitespace, and raises `ValueError`
otherwise (modelled as `none`).  The spellings `inf`/`nan` and underscore
digit separators, which no tracked input uses, are outside this rational
model and map to `none`.  Parsing is split into a discrete recognition
phase (`pyFloatParse`, over `Char`/`ℕ`/`Bool` only) and the rational value
of the recognized literal (`ratOfParsed`). -/

def digitsToNat (ds : List Char) : ℕ :=
  ds.foldl (fun a c => 10 * a + (c.toNat - '0'.toNat)) 0

def isPySpace (c : Char) : Bool :=
  c == ' ' || c == '\t' || c == '\n' || c == '\r' || c == '\x0b' || c == '\x0c'

/-- Python `str.strip()` (ASCII whitespace; no tracked input uses the wider
unicode space classes). -/
def pyStripChars (cs : List Char) : List Char :=
  ((cs.dropWhile isPySpace).reverse.dropWhile isPySpace).reverse

/-- The discrete content of a well-formed Python float literal:
sign, integer part, fractional digits (value and count), exponent sign and
magnitude. -/
structure ParsedFloat where
  neg : Bool
  intPart : ℕ
  fracPart : ℕ
  fracLen : ℕ
  expPos : Bool
  expMag : ℕ
deriving DecidableEq

/-- Parse the optional exponent part (`e`/`E`, optional sign, digits); it
must consume the whole remaining input.  An empty remainder means
exponent 0. -/
def parseExpPart : List Char → Option (Bool × ℕ)
  | [] => some (true, 0)
  | c :: rest =>
    if c = 'e' ∨ c = 'E' then
      let signRest : Bool × List Char :=
        match rest with
        | '+' :: r => (true, r)
        | '-' :: r => (false, r)
        | r => (true, r)
      let ds := signRest.2.takeWhile Char.isDigit
      if ds.isEmpty then none
      else if (signRest.2.dropWhile Char.isDigit).isEmpty then
        some (signRest.1, digitsToNat ds)
      else none
    else none

/-- Parse the decimal significand (`dd`, `dd.`, `dd.ff`, `.ff`); returns its
digits and the unconsumed remainder (handed to `parseExpPart`). -/
def parseSignificand (cs : List Char) : Option (ℕ × ℕ × ℕ × List Char) :=
  let ip := cs.takeWhile Char.isDigit
  let rest1 := cs.dropWhile Char.isDigit
  match rest1 with
  | '.' :: rest2 =>
    let fp := rest2.takeWhile Char.isDigit
    let rest3 := rest2.dropWhile Char.isDigit
    if ip.isEmpty && fp.isEmpty then none
    else some (digitsToNat ip, digitsToNat fp, fp.length, rest3)
  | _ => if ip.isEmpty then none else some (digitsToNat ip, 0, 0, rest1)

/-- Recognition phase of Python `float(text)`: `none` is a raised
`ValueError`. -/
def pyFloatParse (cs : List Char) : Option ParsedFloat :=
  let signBody : Bool × List Char :=
    match pyStripChars cs with
    | '+' :: rest => (false, rest)
    | '-' :: rest => (true, rest)
    | rest => (false, rest)
  match parseSignificand signBody.2 with
  | none => none
  | some (ip, fp, fl, rest) =>
    match parseExpPart rest with
    | none => none
    | some (ep, em) => some ⟨signBody.1, ip, fp, fl, ep, em⟩

/-- Rational value of a recognized float literal. -/
def ratOfParsed (p : ParsedFloat) : ℚ :=
  (if p.neg then (-1 : ℚ) else 1) *
    ((p.intPart + (p.fracPart : ℚ) / (10 : ℚ) ^ p.fracLen) *
      (if p.expPos then (10 : ℚ) ^ p.expMag else 1 / (10 : ℚ) ^ p.expMag))

/-- Python `float(text)` on the character list of `text`. -/
def pyFloatChars (cs : List Char) : Option ℚ :=
  (pyFloatParse cs).map ratOfParsed

/-- A Python value handed to `clean_numeric_text`: `None`, a `str`, or any
other non-string object (the `isinstance(text, str)` guard only
distinguishes strings from everything else). -/
inductive PyValue where
  | pyNone
  | pyStr (s : String)
  | pyOther
deriving DecidableEq

/-- Source line 37: `text.replace('$','').replace(',','').replace('%','').strip()`.
Python `replace(c, '')` removes every occurrence of `c`. -/
def cleanChars (s : String) : List Char :=
  pyStripChars (((s.toList.filter (· != '$')).filter (· != ',')).filter (· != '%'))

/-- Source lines 39-48: the multiplier chain.  `'T' in text` is substring
containment anywhere in the cleaned text (not a suffix test) and
`text.replace('T','')` removes every `'T'`; likewise for `'B'` and `'M'`,
checked in that order.  The multiplier is a Python `int`, hence `ℕ`.
Returns (multiplier, remaining text). -/
def suffixMult (t : List Char) : ℕ × List Char :=
  if t.contains 'T' then (1000000000000, t.filter (· != 'T'))
  else if t.contains 'B' then (1000000000, t.filter (· != 'B'))
  else if t.contains 'M' then (1000000, t.filter (· != 'M'))
  else (1, t)

/-- Source lines 32-53, `clean_numeric_text`: the `isinstance` guard sends
every non-string to `None`; the `try/except (ValueError, TypeError)`
around `float(text) * multiplier` sends every unparseable remainder to
`None`.  No raise can escape. -/
def clean_numeric_text (v : PyValue) : Option ℚ :=
  match v with
  | .pyStr s =>
    let mt := suffixMult (cleanChars s)
    (pyFloatChars mt.2).map (fun q => q * (mt.1 : ℚ))
  | _ => none

example : suffixMult (cleanChars "$1.2T") = (1000000000000, ['1', '.', '2']) := by
  decide

example : pyFloatParse ['1', '.', '2'] = some ⟨false, 1, 2, 1, true, 0⟩ := by
  decide

example : clean_numeric_text (.pyStr "$1.2T") = some (1.2e12 : ℚ) := by
  have h1 : suffixMult (cleanChars "$1.2T") = (1000000000000, ['1', '.', '2']) := by decide
  have h2 : pyFloatParse ['1', '.', '2'] = some ⟨false, 1, 2, 1, true, 0⟩ := by decide
  simp [clean_numeric_text, pyFloatChars, h1, h2, ratOfParsed]
  norm_num

example : clean_numeric_text (.pyStr "") = none := by decide
example : clean_numeric_text .pyNone = none := by decide

/-! ## C2 claim-side normalizer variants

`normalizeClaimed` follows the claim's wording literally: the magnitude
token is recognized as a *suffix* (the final character of the cleaned
text) and removed exactly once.  `normalizeAmended` states the code's
actual mechanism as an ordered (letter, multiplier) table evaluated
top-down: containment anywhere selects the multiplier and every
occurrence of the letter is removed. -/

def normalizeClaimed (v : PyValue) : Option ℚ :=
  match v with
  | .pyStr s =>
    let t := cleanChars s
    if t.getLast? = some 'T' then
      (pyFloatChars t.dropLast).map (fun q => q * 1000000000000)
    else if t.getLast? = some 'B' then
      (pyFloatChars t.dropLast).map (fun q => q * 1000000000)
    else if t.getLast? = some 'M' then
      (pyFloatChars t.dropLast).map (fun q => q * 1000000)
    else pyFloatChars t
  | _ => none

def suffix_table : List (Char × ℕ) :=
  [('T', 1000000000000), ('B', 1000000000), ('M', 1000000)]

def normalizeAmended (v : PyValue) : Option ℚ :=
  match v with
  | .pyStr s =>
    let t := cleanChars s
    match suffix_table.find? (fun p => t.contains p.1) with
    | some p => (pyFloatChars (t.filter (· != p.1))).map (fun q => q * (p.2 : ℚ))
    | none => pyFloatChars t
  | _ => none

/-! ## Record Extractor (`get_top_cryptos`, source lines 84-112)

A raw row is the list of its `<td>` cells.  The only cell content the loop
body reads is the plain `.text` of cells 3, 5, 7 and the text of the
`p.coin-item-symbol` sub-element of cell 2; a missing sub-element makes
`find_element` raise, which the per-row `except` turns into `continue`.
`symbolText = none` models that raise. -/

structure RawCell where
  text : String
  symbolText : Option String
deriving DecidableEq

structure MarketRecord where
  name : String
  priceUSD : Option ℚ
  change24hPercent : Option ℚ
  marketCapUSD : Option ℚ
deriving DecidableEq

inductive RowResult where
  | skip
  | ok (r : MarketRecord)
deriving DecidableEq

/-- Body of the per-row loop: `if len(cols) < 9: continue`, then the
`try` block building one record, whose only raise point is the
`find_element` for the name cell. -/
def extract_row (cols : List RawCell) : RowResult :=
  if h : cols.length < 9 then .skip
  else
    match (cols.get ⟨2, by omega⟩).symbolText with
    | none => .skip
    | some name =>
      .ok { name := name
            priceUSD := clean_numeric_text (.pyStr (cols.get ⟨3, by omega⟩).text)
            change24hPercent := clean_numeric_text (.pyStr (cols.get ⟨5, by omega⟩).text)
            marketCapUSD := clean_numeric_text (.pyStr (cols.get ⟨7, by omega⟩).text) }

/-- The `for row in rows` loop: appends each successfully extracted
record, skipping the rest, preserving order. -/
def parse_rows : List (List RawCell) → List MarketRecord
  | [] => []
  | row :: rest =>
    match extract_row row with
    | .skip => parse_rows rest
    | .ok r => r :: parse_rows rest

def TOP_N : ℕ := 20

/-- Source line 84: `rows[:TOP_N]` followed by the parse loop, with the
listing size as explicit configuration. -/
def build (rows : List (List RawCell)) (topN : ℕ) : List MarketRecord :=
  parse_rows (rows.take topN)

/-- The scraping core of `get_top_cryptos` applied to the raw rows. -/
def get_top_cryptos (rows : List (List RawCell)) : List MarketRecord :=
  build rows TOP_N

/-- The function `extract_row` seen as the result-or-skip variant collected by
`List.filterMap`. -/
def extract_row? (row : List RawCell) : Option MarketRecord :=
  match extract_row row with
  | .skip => none
  | .ok r => some r

/-! ## Qualifying records (`main`, source lines 308-309)

`pd.to_numeric(..., errors='coerce')` followed by
`dropna(subset=['Change24h_Percent', 'PriceUSD', 'MarketCapUSD'])`: only
rows with all three numeric fields present reach the analysis. -/

structure QRecord where
  name : String
  priceUSD : ℚ
  change24hPercent : ℚ
  marketCapUSD : ℚ
deriving DecidableEq

instance : Inhabited QRecord := ⟨⟨"", 0, 0, 0⟩⟩

def qualify (r : MarketRecord) : Option QRecord :=
  match r.priceUSD, r.change24hPercent, r.marketCapUSD with
  | some p, some c, some m => some ⟨r.name, p, c, m⟩
  | _, _, _ => none

def dropna (data : List MarketRecord) : List QRecord :=
  data.filterMap qualify

/-- Source line 296: the guard `if data.empty or len(data) < TOP_N` on the
*raw* scraped frame (before `dropna`). -/
def main_guard_skips (data : List MarketRecord) : Bool :=
  data.isEmpty || decide (data.length < TOP_N)

/-! ## Market Analyzer (`display_advanced_analysis`, source lines 139-153,
and `display_highly_advanced_analysis`, source lines 156-176) -/

/-- Model of `pandas.Series.mean()`: NaN on an empty series, no exception. -/
def series_mean (xs : List ℚ) : PFloat :=
  if xs.isEmpty then .nan else .val (xs.sum / (xs.length : ℚ))

def avg_change (df : List QRecord) : PFloat :=
  series_mean (df.map (fun r => r.change24hPercent))

/-- Source line 145: `"Bullish 🐂" if avg_change > 0 else "Bearish 🐻"`
(a NaN mean compares false and yields the Bearish label). -/
def market_sentiment (df : List QRecord) : String :=
  if pfGtZero (avg_change df) then "Bullish 🐂" else "Bearish 🐻"

inductive PyError where
  | valueErrorArgmaxEmpty
  | emptyInput
deriving DecidableEq

def idxmaxAux : ℕ → ℕ → ℚ → List ℚ → ℕ
  | _, best, _, [] => best
  | i, best, bv, x :: rest =>
    if bv < x then idxmaxAux (i + 1) i x rest else idxmaxAux (i + 1) best bv rest

/-- Model of `pandas.Series.idxmax()`: position of the first maximum; raises
`ValueError: attempt to get argmax of an empty sequence` on an empty
series. -/
def idxmax (xs : List ℚ) : Except PyError ℕ :=
  match xs with
  | [] => .error .valueErrorArgmaxEmpty
  | x :: rest => .ok (idxmaxAux 1 0 x rest)

def idxminAux : ℕ → ℕ → ℚ → List ℚ → ℕ
  | _, best, _, [] => best
  | i, best, bv, x :: rest =>
    if x < bv then idxminAux (i + 1) i x rest else idxminAux (i + 1) best bv rest

def idxmin (xs : List ℚ) : Except PyError ℕ :=
  match xs with
  | [] => .error .valueErrorArgmaxEmpty
  | x :: rest => .ok (idxminAux 1 0 x rest)

structure AdvancedReport where
  sentiment : String
  avgChange : PFloat
  highestPriceName : String
  highestPrice : ℚ
  lowestPriceName : String
  lowestPrice : ℚ
deriving DecidableEq

/-- Model of `display_advanced_analysis`: the mean and its label are computed (and
printed) first; the min/max lookups then raise on an empty frame.  The
`PyError.emptyInput` constructor exists only to state the condition the
spec posits; no code path produces it. -/
def display_advanced_analysis (df : List QRecord) : Except PyError AdvancedReport := do
  let avg := avg_change df
  let sent := if pfGtZero avg then "Bullish 🐂" else "Bearish 🐻"
  let hi ← idxmax (df.map (fun r => r.priceUSD))
  let lo ← idxmin (df.map (fun r => r.priceUSD))
  return { sentiment := sent
           avgChange := avg
           highestPriceName := (df.getD hi default).name
           highestPrice := (df.getD hi default).priceUSD
           lowestPriceName := (df.getD lo default).name
           lowestPrice := (df.getD lo default).priceUSD }

/-- Source line 165: the market-cap weighted sentiment; the division is a
numpy float division, so a zero total cap flows into NaN or ±∞. -/
def weighted_avg_change (df : List QRecord) : PFloat :=
  npDiv ((df.map (fun r => r.change24hPercent * r.marketCapUSD)).sum)
        ((df.map (fun r => r.marketCapUSD)).sum)

def weighted_sentiment (df : List QRecord) : String :=
  if pfGtZero (weighted_avg_change df) then "Bullish 🐂" else "Bearish 🐻"

/-- Source lines 170-172: the three cap-tier counts. -/
def large_cap (df : List QRecord) : ℕ :=
  (df.filter (fun r => decide ((10000000000 : ℚ) ≤ r.marketCapUSD))).length

def mid_cap (df : List QRecord) : ℕ :=
  (df.filter (fun r =>
    decide ((1000000000 : ℚ) ≤ r.marketCapUSD) &&
    decide (r.marketCapUSD < (10000000000 : ℚ)))).length

def small_cap (df : List QRecord) : ℕ :=
  (df.filter (fun r => decide (r.marketCapUSD < (1000000000 : ℚ)))).length

/-! ## Scorer / Recommender (`display_recommendation_assistant`,
source lines 205-245) -/

/-- Model of `pandas.Series.min()` on the nonempty frames the scorer sees; the
empty case (where pandas gives NaN) is unreachable in every use below. -/
def listMin : List ℚ → ℚ
  | [] => 0
  | x :: rest => rest.foldl min x

def listMax : List ℚ → ℚ
  | [] => 0
  | x :: rest => rest.foldl max x

/-- Source lines 211-212: `(v - min) / (max - min)` elementwise, as numpy
float division (0/0 on a constant metric gives NaN silently). -/
def minmax_norm (xs : List ℚ) : List PFloat :=
  xs.map (fun v => npDiv (v - listMin xs) (listMax xs - listMin xs))

def mc_norm (df : List QRecord) : List PFloat :=
  minmax_norm (df.map (fun r => r.marketCapUSD))

def ch_norm (df : List QRecord) : List PFloat :=
  minmax_norm (df.map (fun r => r.change24hPercent))

/-- Source lines 226-230: the fixed scenario table. -/
def scenarios : List (String × ℚ) :=
  [("Conservative", (0.20 : ℚ)), ("Moderate", (0.50 : ℚ)), ("Aggressive", (1.20 : ℚ))]

/-- Source line 233: the fixed horizons. -/
def horizons : List ℕ := [1, 5, 10]

/-- Source line 237: `future_price = price * ((1 + rate) ** year)`. -/
def future_price (price rate : ℚ) (year : ℕ) : ℚ :=
  price * (1 + rate) ^ year

/-- Source line 238:
`growth_percent = ((future_price - price) / price) * 100`. -/
def growth_percent (price rate : ℚ) (year : ℕ) : ℚ :=
  ((future_price price rate year - price) / price) * 100

/-- Source lines 232-240: the projection table, keyed by horizon then
scenario. -/
def projections (price : ℚ) : List (ℕ × List (String × ℚ)) :=
  horizons.map (fun y => (y, scenarios.map (fun p => (p.1, growth_percent price p.2 y))))

/-! ## Theorems -/

/-- C1: for every input, `clean_numeric_text` returns a float or absent and
never raises: the result type is `Option ℚ` and the function is total;
any non-string input (including `None`) and any input whose cleaned,
suffix-stripped text is not a valid float yield `none`; in particular
`normalize("")` and `normalize(None)` are `none`. -/
theorem C1_normalizer_total_and_absent :
    (∀ v, clean_numeric_text v = none ∨ ∃ q, clean_numeric_text v = some q) ∧
    clean_numeric_text (.pyStr "") = none ∧
    clean_numeric_text .pyNone = none ∧
    (∀ v, (∀ s, v ≠ .pyStr s) → clean_numeric_text v = none) ∧
    (∀ s, pyFloatChars (suffixMult (cleanChars s)).2 = none →
      clean_numeric_text (.pyStr s) = none) := by
  refine ⟨?_, by decide, rfl, ?_, ?_⟩
  · intro v
    cases h : clean_numeric_text v
    · exact Or.inl rfl
    · exact Or.inr ⟨_, rfl⟩
  · intro v hv
    cases v with
    | pyStr s => exact absurd rfl (hv s)
    | pyNone => rfl
    | pyOther => rfl
  · intro s h
    simp [clean_numeric_text, h]

theorem C1_normalizer_total_and_absent_witness :
    clean_numeric_text PyValue.pyOther = none ∧
    clean_numeric_text (.pyStr "abc") = none :=
  ⟨C1_normalizer_total_and_absent.2.2.2.1 .pyOther (fun _ h => PyValue.noConfusion h),
   C1_normalizer_total_and_absent.2.2.2.2 "abc" (by decide)⟩

/-- C2 counterexample: the code does not recognize the magnitude letter as
a suffix removed exactly once.  On `"T1"` the claimed suffix algorithm
finds no trailing `'T'`/`'B'`/`'M'`, fails to parse `"T1"` as a float and
returns absent, while the code finds `'T'` by containment, removes it and
returns `1e12`. -/
theorem C2_suffix_counterexample :
    clean_numeric_text (.pyStr "T1") = some 1000000000000 ∧
    normalizeClaimed (.pyStr "T1") = none := by
  constructor
  · have h1 : suffixMult (cleanChars "T1") = (1000000000000, ['1']) := by decide
    have h2 : pyFloatParse ['1'] = some ⟨false, 1, 0, 0, true, 0⟩ := by decide
    simp [clean_numeric_text, pyFloatChars, h1, h2, ratOfParsed]
  · have h1 : cleanChars "T1" = ['T', '1'] := by decide
    have h2 : pyFloatParse ['T', '1'] = none := by decide
    simp [normalizeClaimed, h1, pyFloatChars, h2]

/-- C2 (amended): the normalizer strips `$`, `,`, `%` and whitespace, then
checks case-sensitively for *containment* of the letters T, B, M in that
priority order anywhere in the cleaned text; the first letter found
selects the power-of-ten multiplier and *all* of its occurrences are
removed; the remainder is parsed as a float and multiplied.  Stated as
the ordered suffix-table mechanism `normalizeAmended`, extensionally
equal to the code; consequently `normalize("$1.2T") = 1.2e12`. -/
theorem C2_normalizer_mechanism_amended :
    (∀ v, clean_numeric_text v = normalizeAmended v) ∧
    clean_numeric_text (.pyStr "$1.2T") = some (1.2e12 : ℚ) := by
  constructor
  · intro v
    cases v with
    | pyStr s =>
      simp only [clean_numeric_text, normalizeAmended, suffixMult, suffix_table,
        List.find?]
      by_cases hT : 'T' ∈ cleanChars s
      · simp [hT]
      · by_cases hB : 'B' ∈ cleanChars s
        · simp [hT, hB]
        · by_cases hM : 'M' ∈ cleanChars s
          · simp [hT, hB, hM]
          · simp [hT, hB, hM]
    | pyNone => rfl
    | pyOther => rfl
  · have h1 : suffixMult (cleanChars "$1.2T") = (1000000000000, ['1', '.', '2']) := by
      decide
    have h2 : pyFloatParse ['1', '.', '2'] = some ⟨false, 1, 2, 1, true, 0⟩ := by decide
    simp [clean_numeric_text, pyFloatChars, h1, h2, ratOfParsed]
    norm_num

/-- C3: a row with fewer than 9 cells is skipped without raising, and a
row whose extraction fails is skipped alone: the surrounding batch loop
processes the rows before and after it unchanged. -/
theorem C3_extractor_row_scoped :
    (∀ cols : List RawCell, cols.length < 9 → extract_row cols = .skip) ∧
    (∀ (pre post : List (List RawCell)) (bad : List RawCell),
      extract_row bad = .skip →
      parse_rows (pre ++ bad :: post) = parse_rows pre ++ parse_rows post) := by
  constructor
  · intro cols h
    simp [extract_row, h]
  · intro pre post bad hbad
    induction pre with
    | nil => simp [parse_rows, hbad]
    | cons a pre ih =>
      simp only [List.cons_append, parse_rows]
      cases h : extract_row a <;> simp [h, ih]

theorem C3_extractor_row_scoped_witness :
    extract_row ([] : List RawCell) = .skip ∧
    parse_rows ([[⟨"x", none⟩]] ++ ([] : List RawCell) :: []) =
      parse_rows [[⟨"x", none⟩]] ++ parse_rows [] :=
  ⟨C3_extractor_row_scoped.1 [] (by decide),
   C3_extractor_row_scoped.2 [[⟨"x", none⟩]] [] []
     (C3_extractor_row_scoped.1 [] (by decide))⟩

theorem parse_rows_eq_filterMap (rows : List (List RawCell)) :
    parse_rows rows = rows.filterMap extract_row? := by
  induction rows with
  | nil => rfl
  | cons r rest ih =>
    simp only [parse_rows, List.filterMap_cons, extract_row?]
    cases h : extract_row r <;> simp [h, ih]

/-- C9: the Snapshot Builder considers at most the first `topN` raw rows
in source order (rows beyond them cannot affect the result), and the
snapshot is exactly the non-skip extraction results of those rows in
their original relative order (a `filterMap`, hence no padding or
reordering), so its length never exceeds `topN`. -/
theorem C9_snapshot_builder :
    (∀ (rows extra : List (List RawCell)) (n : ℕ), n ≤ rows.length →
      build (rows ++ extra) n = build rows n) ∧
    (∀ (rows : List (List RawCell)) (n : ℕ),
      build rows n = (rows.take n).filterMap extract_row?) ∧
    (∀ (rows : List (List RawCell)) (n : ℕ), (build rows n).length ≤ n) ∧
    (∀ rows, get_top_cryptos rows = build rows TOP_N) := by
  have hchar : ∀ (rows : List (List RawCell)) (n : ℕ),
      build rows n = (rows.take n).filterMap extract_row? := by
    intro rows n
    exact parse_rows_eq_filterMap (rows.take n)
  refine ⟨?_, hchar, ?_, fun _ => rfl⟩
  · intro rows extra n h
    unfold build
    rw [List.take_append_of_le_length h]
  · intro rows n
    rw [hchar]
    calc ((rows.take n).filterMap extract_row?).length
        ≤ (rows.take n).length := List.length_filterMap_le _ _
      _ ≤ n := by simp [List.length_take]

theorem C9_snapshot_builder_witness :
    (1 : ℕ) ≤ ([[], []] : List (List RawCell)).length ∧
    build (([[], []] : List (List RawCell)) ++ [[]]) 1 = build [[], []] 1 :=
  ⟨by decide, C9_snapshot_builder.1 [[], []] [[]] 1 (by decide)⟩

/-- C4: the three cap-tier filters partition any qualifying frame, and the
boundaries land as claimed: exactly `10_000_000_000` is Large (not Mid),
exactly `1_000_000_000` is Mid (not Small). -/
theorem C4_cap_tiers :
    (∀ df : List QRecord, large_cap df + mid_cap df + small_cap df = df.length) ∧
    large_cap [⟨"X", 0, 0, 10000000000⟩] = 1 ∧
    mid_cap [⟨"X", 0, 0, 10000000000⟩] = 0 ∧
    small_cap [⟨"X", 0, 0, 10000000000⟩] = 0 ∧
    large_cap [⟨"Y", 0, 0, 1000000000⟩] = 0 ∧
    mid_cap [⟨"Y", 0, 0, 1000000000⟩] = 1 ∧
    small_cap [⟨"Y", 0, 0, 1000000000⟩] = 0 := by
  refine ⟨?_, by decide, by decide, by decide, by decide, by decide, by decide⟩
  intro df
  induction df with
  | nil => rfl
  | cons r rest ih =>
    have hcons : ∀ p : QRecord → Bool,
        (List.filter p (r :: rest)).length =
          (if p r then 1 else 0) + (List.filter p rest).length := by
      intro p
      by_cases h : p r <;> simp [List.filter_cons, h, Nat.add_comm]
    simp only [large_cap, mid_cap, small_cap] at ih ⊢
    rw [hcons, hcons, hcons, List.length_cons]
    by_cases h1 : (10000000000 : ℚ) ≤ r.marketCapUSD
    · have h2 : ¬ r.marketCapUSD < (10000000000 : ℚ) := not_lt.mpr h1
      have h3 : ¬ r.marketCapUSD < (1000000000 : ℚ) :=
        not_lt.mpr (le_trans (by norm_num) h1)
      simp [h1, h2, h3]
      omega
    · by_cases h2 : (1000000000 : ℚ) ≤ r.marketCapUSD
      · have h3 : r.marketCapUSD < (10000000000 : ℚ) := not_le.mp h1
        have h4 : ¬ r.marketCapUSD < (1000000000 : ℚ) := not_lt.mpr h2
        simp [h1, h2, h3, h4]
        omega
      · have h3 : r.marketCapUSD < (1000000000 : ℚ) := not_le.mp h2
        simp [h1, h2, h3]
        omega

def exampleRecords3 : List QRecord :=
  [⟨"A", 1, 2, 1⟩, ⟨"B", 1, -1, 1⟩, ⟨"C", 1, 3, 1⟩]

/-- C5: on a non-empty qualifying frame the sentiment mean is the
arithmetic mean of `change24hPercent`; the label is the Bullish one
exactly when the mean is strictly positive, and the Bearish one
otherwise (so a mean of exactly 0 is Bearish); on changes
`[2, -1, 3]` the mean is `4/3` and the label is Bullish. -/
theorem C5_sentiment_mean :
    (∀ df : List QRecord, df ≠ [] →
      avg_change df =
        .val ((df.map (fun r => r.change24hPercent)).sum / (df.length : ℚ)) ∧
      (market_sentiment df = "Bullish 🐂" ↔
        0 < (df.map (fun r => r.change24hPercent)).sum / (df.length : ℚ)) ∧
      ((df.map (fun r => r.change24hPercent)).sum / (df.length : ℚ) = 0 →
        market_sentiment df = "Bearish 🐻")) ∧
    avg_change exampleRecords3 = .val (4 / 3) ∧
    market_sentiment exampleRecords3 = "Bullish 🐂" := by
  have hstr : ("Bearish 🐻" : String) ≠ "Bullish 🐂" := by decide
  refine ⟨?_, ?_, ?_⟩
  · rintro ⟨⟩ h
    · exact absurd rfl h
    case cons a l =>
      have hiff : market_sentiment (a :: l) = "Bullish 🐂" ↔
          0 < ((a :: l).map (fun r => r.change24hPercent)).sum / ((a :: l).length : ℚ) := by
        by_cases hpos :
            0 < ((a :: l).map (fun r => r.change24hPercent)).sum / ((a :: l).length : ℚ)
        · simp [market_sentiment, avg_change, series_mean, pfGtZero, hpos]
        · simp [market_sentiment, avg_change, series_mean, pfGtZero, hpos, hstr]
      refine ⟨by simp [avg_change, series_mean], hiff, ?_⟩
      intro h0
      have hnb : ¬ market_sentiment (a :: l) = "Bullish 🐂" := by
        rw [hiff, h0]
        exact lt_irrefl 0
      unfold market_sentiment at hnb ⊢
      by_cases hg : pfGtZero (avg_change (a :: l)) = true
      · rw [if_pos hg] at hnb
        exact absurd rfl hnb
      · rw [if_neg hg]
  · norm_num [exampleRecords3, avg_change, series_mean]
  · have h43 : avg_change exampleRecords3 = .val (4 / 3) := by
      norm_num [exampleRecords3, avg_change, series_mean]
    norm_num [market_sentiment, h43, pfGtZero]

theorem C5_sentiment_mean_witness :
    exampleRecords3 ≠ [] ∧
    avg_change exampleRecords3 =
      .val ((exampleRecords3.map (fun r => r.change24hPercent)).sum /
        (exampleRecords3.length : ℚ)) :=
  ⟨by decide, (C5_sentiment_mean.1 exampleRecords3 (by decide)).1⟩

def zeroCapRecords : List QRecord := [⟨"Z", 1, 5, 0⟩]

def symmetricPair : List QRecord :=
  [⟨"A", 1, 10, 1000000000⟩, ⟨"B", 1, -10, 1000000000⟩]

/-- C6 counterexample: with total market cap zero the weighted-sentiment
computation does not fail with any DivisionUndefined condition - the
numpy division silently yields NaN and the code goes on to print a
Bearish label. -/
theorem C6_zero_cap_counterexample :
    weighted_avg_change zeroCapRecords = .nan ∧
    weighted_sentiment zeroCapRecords = "Bearish 🐻" := by
  have h : weighted_avg_change zeroCapRecords = .nan := by
    simp [weighted_avg_change, zeroCapRecords, npDiv]
  exact ⟨h, by simp [weighted_sentiment, h, pfGtZero]⟩

/-- C6 (amended): the weighted sentiment is
`Σ(change_i × marketCap_i) / Σ(marketCap_i)` whenever the total market
cap is nonzero - on caps `[1e9, 1e9]` and changes `[10, -10]` it is
exactly 0 - and when the total market cap is zero the code does not
fail: the division silently produces NaN or a signed infinity, which
then flows into the sentiment comparison. -/
theorem C6_weighted_sentiment_amended :
    (∀ df : List QRecord,
      ((df.map (fun r => r.marketCapUSD)).sum ≠ 0 →
        weighted_avg_change df =
          .val ((df.map (fun r => r.change24hPercent * r.marketCapUSD)).sum /
            (df.map (fun r => r.marketCapUSD)).sum)) ∧
      ((df.map (fun r => r.marketCapUSD)).sum = 0 →
        weighted_avg_change df = .nan ∨ weighted_avg_change df = .pinf ∨
          weighted_avg_change df = .ninf)) ∧
    weighted_avg_change symmetricPair = .val 0 := by
  constructor
  · intro df
    constructor
    · intro h
      simp [weighted_avg_change, npDiv, h]
    · intro h
      simp only [weighted_avg_change, npDiv, h, if_pos]
      by_cases h2 : (df.map (fun r => r.change24hPercent * r.marketCapUSD)).sum = 0
      · simp [h2]
      · by_cases h3 : 0 < (df.map (fun r => r.change24hPercent * r.marketCapUSD)).sum
        · simp [h2, h3]
        · simp [h2, h3]
  · norm_num [weighted_avg_change, symmetricPair, npDiv]

theorem C6_weighted_sentiment_amended_witness :
    weighted_avg_change zeroCapRecords = .nan ∨
      weighted_avg_change zeroCapRecords = .pinf ∨
      weighted_avg_change zeroCapRecords = .ninf :=
  (C6_weighted_sentiment_amended.1 zeroCapRecords).2 (by simp [zeroCapRecords])

def pricelessRow : MarketRecord := ⟨"X", none, some 1, some 1⟩

/-- A full scrape of `TOP_N` rows, none of which qualifies for analysis:
it passes the `main` guard (which looks only at the raw row count) and
still leaves the Analyzer with zero qualifying records. -/
def degenerateScrape : List MarketRecord := List.replicate 20 pricelessRow

/-- C7 counterexample: on zero qualifying records the Analyzer does not
fail with an explicit EmptyInput condition - it first computes a NaN
sentiment mean, then crashes with the unrelated pandas
`ValueError: attempt to get argmax of an empty sequence` from `idxmax`
on the empty price series. -/
theorem C7_empty_analysis_counterexample :
    display_advanced_analysis [] = .error .valueErrorArgmaxEmpty ∧
    PyError.valueErrorArgmaxEmpty ≠ PyError.emptyInput ∧
    avg_change [] = .nan :=
  ⟨rfl, by decide, rfl⟩

/-- C7 (amended): on zero qualifying records the Analyzer computes a NaN
mean (labelled Bearish), then raises pandas' argmax ValueError - an
unrelated error, not an EmptyInput condition; on at least one
qualifying record it returns a report.  The `main` guard does not
prevent the empty case: a full scrape of `TOP_N` rows that all fail
qualification passes the guard with zero qualifying records. -/
theorem C7_empty_analysis_amended :
    (∀ df : List QRecord, df = [] →
      display_advanced_analysis df = .error .valueErrorArgmaxEmpty ∧
      avg_change df = .nan ∧ market_sentiment df = "Bearish 🐻") ∧
    (∀ df : List QRecord, df ≠ [] →
      ∃ rep, display_advanced_analysis df = .ok rep) ∧
    main_guard_skips degenerateScrape = false ∧
    dropna degenerateScrape = [] := by
  refine ⟨?_, ?_, by decide, by decide⟩
  · rintro df rfl
    exact ⟨rfl, rfl, rfl⟩
  · intro df h
    obtain ⟨a, l, rfl⟩ := List.exists_cons_of_ne_nil h
    exact ⟨_, rfl⟩

theorem C7_empty_analysis_amended_witness :
    display_advanced_analysis ([] : List QRecord) = .error .valueErrorArgmaxEmpty ∧
    ∃ rep, display_advanced_analysis exampleRecords3 = .ok rep :=
  ⟨(C7_empty_analysis_amended.1 [] rfl).1,
   C7_empty_analysis_amended.2.1 exampleRecords3 (by decide)⟩

def equalCapRecords : List QRecord :=
  [⟨"A", 1, 1, 5000000000⟩, ⟨"B", 2, 2, 5000000000⟩]

/-- C8 counterexample: when all market caps are identical the min-max
normalization divides `0/0` silently and every normalized value is NaN -
not a defined constant such as `0.5`, and no NormalizationUndefined
condition is raised (the computation is total and returns). -/
theorem C8_constant_metric_counterexample :
    mc_norm equalCapRecords = [.nan, .nan] ∧
    PFloat.nan ≠ .val (1 / 2) := by
  constructor
  · simp [mc_norm, minmax_norm, equalCapRecords, listMin, listMax, npDiv]
  · intro h
    exact PFloat.noConfusion h

theorem foldl_min_const (c : ℚ) : ∀ xs : List ℚ,
    (∀ x ∈ xs, x = c) → xs.foldl min c = c := by
  intro xs
  induction xs with
  | nil => intro _; rfl
  | cons a l ih =>
    intro h
    have ha : a = c := h a (List.mem_cons_self a l)
    simp only [List.foldl_cons, ha, min_self]
    exact ih fun x hx => h x (List.mem_cons_of_mem a hx)

theorem foldl_max_const (c : ℚ) : ∀ xs : List ℚ,
    (∀ x ∈ xs, x = c) → xs.foldl max c = c := by
  intro xs
  induction xs with
  | nil => intro _; rfl
  | cons a l ih =>
    intro h
    have ha : a = c := h a (List.mem_cons_self a l)
    simp only [List.foldl_cons, ha, max_self]
    exact ih fun x hx => h x (List.mem_cons_of_mem a hx)

theorem minmax_norm_const (xs : List ℚ) (c : ℚ) (h : ∀ x ∈ xs, x = c) :
    minmax_norm xs = xs.map (fun _ => PFloat.nan) := by
  cases xs with
  | nil => rfl
  | cons a l =>
    have ha : a = c := h a (List.mem_cons_self a l)
    have htail : ∀ x ∈ l, x = c := fun x hx => h x (List.mem_cons_of_mem a hx)
    have hmin : listMin (a :: l) = c := by
      simp only [listMin, ha]
      exact foldl_min_const c l htail
    have hmax : listMax (a :: l) = c := by
      simp only [listMax, ha]
      exact foldl_max_const c l htail
    unfold minmax_norm
    rw [hmin, hmax]
    refine List.map_congr_left ?_
    intro x hx
    have hx' : x = c := h x hx
    simp [hx', npDiv]

/-- C8 (amended): the code never handles the degenerate `max == min` case:
whenever all values of a metric are identical, the elementwise
`(v - min) / (max - min)` is `0/0` and every normalized value for that
metric is NaN, silently - there is no `0.5` fallback and no raised
condition. -/
theorem C8_constant_metric_amended :
    ∀ (df : List QRecord) (c : ℚ),
      ((∀ r ∈ df, r.marketCapUSD = c) →
        mc_norm df = df.map (fun _ => PFloat.nan)) ∧
      ((∀ r ∈ df, r.change24hPercent = c) →
        ch_norm df = df.map (fun _ => PFloat.nan)) := by
  intro df c
  constructor
  · intro h
    have hh : ∀ x ∈ df.map (fun r => r.marketCapUSD), x = c := by
      intro x hx
      obtain ⟨r, hr, rfl⟩ := List.mem_map.mp hx
      exact h r hr
    unfold mc_norm
    rw [minmax_norm_const (df.map fun r => r.marketCapUSD) c hh, List.map_map]
    rfl
  · intro h
    have hh : ∀ x ∈ df.map (fun r => r.change24hPercent), x = c := by
      intro x hx
      obtain ⟨r, hr, rfl⟩ := List.mem_map.mp hx
      exact h r hr
    unfold ch_norm
    rw [minmax_norm_const (df.map fun r => r.change24hPercent) c hh, List.map_map]
    rfl

theorem C8_constant_metric_amended_witness :
    mc_norm equalCapRecords = equalCapRecords.map (fun _ => PFloat.nan) :=
  (C8_constant_metric_amended equalCapRecords 5000000000).1 (by decide)

theorem growth_percent_of_ne_zero (price rate : ℚ) (year : ℕ) (hp : price ≠ 0) :
    growth_percent price rate year = ((1 + rate) ^ year - 1) * 100 := by
  unfold growth_percent future_price
  field_simp
  ring

/-- C10: for a strictly positive top-pick price, the projected
`growthPercent` is `((1 + rate)^years - 1) × 100`, independent of the
price: two positive prices give identical projection tables over the
fixed scenario rates and horizons. -/
theorem C10_projection_price_independent :
    ∀ price : ℚ, 0 < price →
      (∀ (rate : ℚ) (year : ℕ),
        growth_percent price rate year = ((1 + rate) ^ year - 1) * 100) ∧
      (∀ price2 : ℚ, 0 < price2 → projections price = projections price2) := by
  intro p hp
  have hp0 : p ≠ 0 := ne_of_gt hp
  refine ⟨fun r y => growth_percent_of_ne_zero p r y hp0, ?_⟩
  intro q hq
  have hq0 : q ≠ 0 := ne_of_gt hq
  simp only [projections, horizons, scenarios, List.map_cons, List.map_nil,
    growth_percent_of_ne_zero _ _ _ hp0, growth_percent_of_ne_zero _ _ _ hq0]

theorem C10_projection_price_independent_witness :
    (0 : ℚ) < 100 ∧ projections 100 = projections 200 :=
  ⟨by decide,
   (C10_projection_price_independent 100 (by decide)).2 200 (by decide)⟩
